import Mathlib

/-!
Shallow embedding of the ftzz_clone generator (src/src/generator.rs).

The generator builds a pseudo-random directory tree.  Machine integers are
modelled as `Nat` with explicit wrapping (`% 2 ^ 32`, `% 2 ^ 64`); `f64`
values are modelled as real numbers, with Rust's rounding and saturating
casts made explicit.  Sampling from the `rand_distr` distributions is a
deterministic function of the generator state in the source; it is kept
abstract here as a `draw` parameter so every theorem holds for the actual
sampling function.  Filesystem effects are modelled by an explicit state
record threaded through the functions that perform them.
-/

namespace Ftzz

/-! ### 32/64-bit wrapping arithmetic -/

def mask32 : Nat := 2 ^ 32

def mask64 : Nat := 2 ^ 64

def wrap32 (n : Nat) : Nat := n % mask32

def wrap64 (n : Nat) : Nat := n % mask64

/-! ### The xorshift128 generator (rand_xorshift::XorShiftRng)

State is four 32-bit words `x y z w`.  `nextU32` is `RngCore::next_u32`,
`fromSeed` is `SeedableRng::from_seed` (an all-zero seed is replaced by the
constant 0xBAD5EED in every word), `nextSeed` is the repository's
`RandomUtils::next_seed` (four successive outputs reinterpreted as a seed;
on a little-endian machine the words carry over unchanged), and
`seedFromU64` is the default `SeedableRng::seed_from_u64` (a PCG-style
output function applied to four steps of an LCG). -/

structure RngState where
  x : Nat
  y : Nat
  z : Nat
  w : Nat
deriving Repr, DecidableEq

def nextU32 (s : RngState) : Nat × RngState :=
  let t := wrap32 (s.x ^^^ wrap32 (s.x <<< 11))
  let w1 := wrap32 ((s.w ^^^ (s.w >>> 19)) ^^^ (t ^^^ (t >>> 8)))
  (w1, ⟨s.y, s.z, s.w, w1⟩)

structure Seed16 where
  a : Nat
  b : Nat
  c : Nat
  d : Nat
deriving Repr, DecidableEq

def badSeedWord : Nat := 0xBAD5EED

def fromSeed (s : Seed16) : RngState :=
  if s.a = 0 ∧ s.b = 0 ∧ s.c = 0 ∧ s.d = 0 then
    ⟨badSeedWord, badSeedWord, badSeedWord, badSeedWord⟩
  else
    ⟨wrap32 s.a, wrap32 s.b, wrap32 s.c, wrap32 s.d⟩

def nextSeed (s : RngState) : Seed16 × RngState :=
  let p1 := nextU32 s
  let p2 := nextU32 p1.2
  let p3 := nextU32 p2.2
  let p4 := nextU32 p3.2
  (⟨p1.1, p2.1, p3.1, p4.1⟩, p4.2)

def rotateRight32 (x r : Nat) : Nat :=
  let r := r % 32
  wrap32 ((x >>> r) ||| wrap32 (x <<< (32 - r)))

def pcgMul : Nat := 6364136223846793005

def pcgInc : Nat := 11634580027462260723

def pcgOutput (st : Nat) : Nat :=
  rotateRight32 (wrap32 (((st >>> 18) ^^^ st) >>> 27)) (st >>> 59)

def seedFromU64 (n : Nat) : RngState :=
  let s1 := wrap64 (wrap64 n * pcgMul + pcgInc)
  let s2 := wrap64 (s1 * pcgMul + pcgInc)
  let s3 := wrap64 (s2 * pcgMul + pcgInc)
  let s4 := wrap64 (s3 * pcgMul + pcgInc)
  fromSeed ⟨pcgOutput s1, pcgOutput s2, pcgOutput s3, pcgOutput s4⟩

/-! ### Real-number model of the f64 operations used by the generator -/

/-- Rust `f64::round`: round to the nearest integer, ties away from zero. -/
noncomputable def rustRound (x : ℝ) : ℤ :=
  if x < 0 then -⌊-x + 1 / 2⌋ else ⌊x + 1 / 2⌋

/-- Rust `as usize` on an f64 already rounded to an integer: the cast
saturates, so negative values clamp to zero and huge values clamp to
`usize::MAX` (64-bit target). -/
def intAsUsize (i : ℤ) : Nat := min i.toNat (mask64 - 1)

/-- Rust `as u64` on a nonnegative-or-negative f64: truncates toward zero
and saturates at the ends. -/
noncomputable def f64AsU64 (x : ℝ) : Nat :=
  if x < 0 then 0 else min ⌊x⌋.toNat (mask64 - 1)

/-! ### The distribution sampler (GeneratorUtils::num_to_generate for f64) -/

/-- Distribution chosen by `num_to_generate`: either
`LogNormal::from_mean_cv(mean, 2.0)` or `Normal::new(mean, mean * 0.2)`. -/
inductive Dist where
  | logNormal (mean cv : ℝ)
  | normal (mean stddev : ℝ)

/-- Threshold branch of `num_to_generate`: log-normal above 10 000,
normal otherwise. -/
noncomputable def chooseDist (mean : ℝ) : Dist :=
  if mean > 10000 then .logNormal mean 2 else .normal mean (mean * 0.2)

/-- GeneratorUtils::num_to_generate for f64.  `draw` models
`Distribution::sample` for the selected distribution: in the source it is a
deterministic function of the distribution parameters and the generator
state, so it is abstracted as a function argument here.  The sampled value
is rounded and cast to `usize` (saturating at zero). -/
noncomputable def numToGenerate (draw : Dist → RngState → ℝ × RngState)
    (mean : ℝ) (rng : RngState) : Nat × RngState :=
  let p := draw (chooseDist mean) rng
  (intAsUsize (rustRound p.1), p.2)

/-! ### Trees of generated files and directories

A node records the plain files created in that directory (name and byte
content; `File::create` writes no bytes, so content is always empty) and
the subdirectories with their names.  The source names the i-th file
`i.to_string()` and the i-th directory `format!("{}.dir", i)`. -/

inductive FileTree where
  | node (files : List (String × List Nat)) (dirs : List (String × FileTree))

def fileEntries (n : Nat) : List (String × List Nat) :=
  (List.range n).map (fun i => (toString i, []))

def dirName (i : Nat) : String := toString i ++ ".dir"

def withDirNames (ts : List FileTree) : List (String × FileTree) :=
  ts.enum.map (fun q => (dirName q.1, q.2))

def FileTree.filesOf : FileTree → List (String × List Nat)
  | .node fs _ => fs

def FileTree.dirsOf : FileTree → List (String × FileTree)
  | .node _ ds => ds

mutual

def totalFiles : FileTree → Nat
  | .node fs ds => fs.length + totalFilesL ds

def totalFilesL : List (String × FileTree) → Nat
  | [] => 0
  | p :: rest => totalFiles p.2 + totalFilesL rest

end

mutual

def totalDirs : FileTree → Nat
  | .node _ ds => ds.length + totalDirsL ds

def totalDirsL : List (String × FileTree) → Nat
  | [] => 0
  | p :: rest => totalDirs p.2 + totalDirsL rest

end

mutual

def treeDepth : FileTree → Nat
  | .node _ ds => treeDepthL ds

def treeDepthL : List (String × FileTree) → Nat
  | [] => 0
  | p :: rest => max (treeDepth p.2 + 1) (treeDepthL rest)

end

mutual

def filesEmpty : FileTree → Bool
  | .node fs ds => fs.all (fun p => p.2.isEmpty) && filesEmptyL ds

def filesEmptyL : List (String × FileTree) → Bool
  | [] => true
  | p :: rest => filesEmpty p.2 && filesEmptyL rest

end

/-! ### Generator statistics (struct GeneratorStats and its AddAssign) -/

structure GeneratorStats where
  files : Nat
  dirs : Nat
deriving Repr, DecidableEq

/-- The `AddAssign` impl for GeneratorStats: field-wise sum. -/
def statAdd (a b : GeneratorStats) : GeneratorStats :=
  ⟨a.files + b.files, a.dirs + b.dirs⟩

/-- Semantic totals of a tree, for comparison with the stats the run
reports. -/
def statsOf (t : FileTree) : GeneratorStats := ⟨totalFiles t, totalDirs t⟩

/-! ### Options, configuration and validation (struct Generate,
struct Configuration, fn validated_options) -/

/-- The public options record (struct Generate).  The CLI parsers enforce
`num_files > 0` and a supplied ratio `> 0` before this layer. -/
structure Generate where
  root_dir : String
  num_files : Nat
  max_depth : Nat
  file_to_dir_ratio : Option Nat
  entropy : Nat

/-- The resolved configuration (struct Configuration). -/
structure Configuration where
  root_dir : String
  files : Nat
  files_per_dir : ℝ
  dirs_per_dir : ℝ
  max_depth : Nat
  entropy : Nat
  informational_dirs_per_dir : Nat
  informational_total_dirs : Nat

/-- Error classes used through `with_code`: `exitcode::IOERR` (74) for
filesystem failures, `exitcode::DATAERR` (65) for configuration failures,
`exitcode::SOFTWARE` (70) for task failures. -/
inductive CliError where
  | ioError
  | dataError
  | softwareError
deriving Repr, DecidableEq

def CliError.code : CliError → Nat
  | .ioError => 74
  | .dataError => 65
  | .softwareError => 70

/-- Model of the filesystem as seen by this program: the state of the root
directory and the tree this run has written under it (`none` while nothing
has been generated). -/
structure FsState where
  rootExists : Bool
  rootCreatable : Bool
  rootEntries : Nat
  tree : Option FileTree

/-- `create_dir_all(&options.root_dir)`: a no-op when the root already
exists, otherwise creates it empty (or fails with an I/O error). -/
def createDirAll (fs : FsState) : Except CliError FsState :=
  if fs.rootExists then .ok fs
  else if fs.rootCreatable then
    .ok { fs with rootExists := true, rootEntries := 0 }
  else .error .ioError

/-- The ratio actually used when `max_depth > 0`:
`file_to_dir_ratio.unwrap_or_else(|| max(num_files / 1000, 1))`. -/
def ratioOf (opts : Generate) : Nat :=
  opts.file_to_dir_ratio.getD (max (opts.num_files / 1000) 1)

/-- The configuration built when `max_depth == 0`. -/
noncomputable def depthZeroConfig (opts : Generate) : Configuration :=
  { root_dir := opts.root_dir
    files := opts.num_files
    files_per_dir := (opts.num_files : ℝ)
    dirs_per_dir := 0
    max_depth := 0
    entropy := opts.entropy
    informational_dirs_per_dir := 0
    informational_total_dirs := 1 }

/-- The configuration built when `max_depth > 0` and the ratio check
passes: `dirs_per_dir = 2.powf(num_dirs.log2() / max_depth)` with
`num_dirs = num_files / ratio`. -/
noncomputable def positiveDepthConfig (opts : Generate) : Configuration :=
  let ratio := ratioOf opts
  let numDirs : ℝ := (opts.num_files : ℝ) / (ratio : ℝ)
  let dirsPerDir : ℝ := (2 : ℝ) ^ (Real.logb 2 numDirs / (opts.max_depth : ℝ))
  { root_dir := opts.root_dir
    files := opts.num_files
    files_per_dir := (ratio : ℝ)
    dirs_per_dir := dirsPerDir
    max_depth := opts.max_depth
    entropy := opts.entropy
    informational_dirs_per_dir := intAsUsize (rustRound dirsPerDir)
    informational_total_dirs := intAsUsize (rustRound numDirs) }

/-- fn validated_options: ensure the root directory exists (creating it if
needed), reject a non-empty root, return the flat configuration at depth 0,
and otherwise check the ratio before deriving the tree parameters.  Returns
the result together with the filesystem state after the call. -/
noncomputable def validatedOptions (fs : FsState) (opts : Generate) :
    Except CliError Configuration × FsState :=
  match createDirAll fs with
  | .error e => (.error e, fs)
  | .ok fs1 =>
    if fs1.rootEntries ≠ 0 then (.error .dataError, fs1)
    else if opts.max_depth = 0 then (.ok (depthZeroConfig opts), fs1)
    else if ratioOf opts > opts.num_files then (.error .dataError, fs1)
    else (.ok (positiveDepthConfig opts), fs1)

def isOkE (e : Except CliError Configuration) : Bool :=
  match e with
  | .ok _ => true
  | .error _ => false

/-! ### The recursive generation engine (run_generator_async) -/

/-- Sequentially draw `n` child seeds from a parent stream, as the spawn
loop in `run_generator_async` does via `state.next(dir, &mut random)`. -/
def drawSeeds : Nat → RngState → List Seed16 × RngState
  | 0, s => ([], s)
  | n + 1, s =>
    let p := nextSeed s
    let q := drawSeeds n p.2
    (p.1 :: q.1, q.2)

def defaultSeed : Seed16 := ⟨0, 0, 0, 0⟩

/-- The tree produced by `run_generator_async` from a given state: sample
the file count, sample the directory count (forced to 0 when the remaining
depth is 0), create the files and directories, and recurse into each
directory with a fresh sub-seed and decremented depth
(`GeneratorState::next`). -/
noncomputable def genTree (draw : Dist → RngState → ℝ × RngState) :
    Nat → ℝ → ℝ → RngState → FileTree
  | 0, fpd, _, rng =>
    .node (fileEntries (numToGenerate draw fpd rng).1) []
  | d + 1, fpd, dpd, rng =>
    let p1 := numToGenerate draw fpd rng
    let p2 := numToGenerate draw dpd p1.2
    let seeds := (drawSeeds p2.1 p2.2).1
    .node (fileEntries p1.1)
      (withDirNames ((List.range p2.1).map (fun i =>
        genTree draw d fpd dpd (fromSeed (seeds.getD i defaultSeed)))))

/-- A schedule: for every node, the order in which its children's results
arrive from the `FuturesUnordered` poll loop (an index permutation), and
the schedules of the children themselves. -/
inductive Sched where
  | node (perm : List Nat) (children : List Sched)

def Sched.permOf : Sched → List Nat
  | .node p _ => p

def Sched.childAt : Sched → Nat → Sched
  | .node _ cs, i => cs.getD i (.node [] [])

/-- Reorder a list of child results by an arrival permutation; an index
list that is not a permutation of the positions stands for the in-order
arrival. -/
def applyPerm (p : List Nat) (l : List GeneratorStats) : List GeneratorStats :=
  if p.isPerm (List.range l.length) then p.map (fun i => l.getD i ⟨0, 0⟩) else l

/-- One run of `run_generator_async` under a given schedule: the tree that
is written to disk, and the stats obtained by starting from this node's own
counts and folding in the children's stats in arrival order. -/
noncomputable def runSched (draw : Dist → RngState → ℝ × RngState) :
    Nat → Sched → ℝ → ℝ → RngState → FileTree × GeneratorStats
  | 0, _, fpd, _, rng =>
    let nf := (numToGenerate draw fpd rng).1
    (.node (fileEntries nf) [], ⟨nf, 0⟩)
  | d + 1, σ, fpd, dpd, rng =>
    let p1 := numToGenerate draw fpd rng
    let p2 := numToGenerate draw dpd p1.2
    let seeds := (drawSeeds p2.1 p2.2).1
    let results := (List.range p2.1).map (fun i =>
      runSched draw d (σ.childAt i) fpd dpd (fromSeed (seeds.getD i defaultSeed)))
    (.node (fileEntries p1.1) (withDirNames (results.map (fun r => r.1))),
      (applyPerm σ.permOf (results.map (fun r => r.2))).foldl statAdd ⟨p1.1, p2.1⟩)

/-- The initial generator state (`From<Configuration> for GeneratorState`):
seed the PRNG from an f64 mix of the configuration fields wrapped with the
entropy, then advance it once with `next_seed`. -/
noncomputable def initialState (c : Configuration) : RngState :=
  let s0 := wrap64
    (f64AsU64 (((wrap64 (c.files + c.max_depth) : Nat) : ℝ)
      * (c.files_per_dir + c.dirs_per_dir)) + c.entropy)
  fromSeed (nextSeed (seedFromU64 s0)).1

/-- fn generate under a schedule: validate the options, then run the
generator from the initial state and write the produced tree under the
root.  Validation failures are returned without running the generator. -/
noncomputable def generateSched (draw : Dist → RngState → ℝ × RngState)
    (σ : Sched) (fs : FsState) (opts : Generate) :
    Except CliError GeneratorStats × FsState :=
  let v := validatedOptions fs opts
  match v.1 with
  | .error e => (.error e, v.2)
  | .ok c =>
    let r := runSched draw c.max_depth σ c.files_per_dir c.dirs_per_dir (initialState c)
    (.ok r.2, { v.2 with tree := some r.1 })

/-! ### The exact-count reconciler -/

/-- Share of the remaining budget given to each of `n` children: the first
`n - 1` children receive the rounded-down even share and the last child
receives whatever remains, so the shares always sum to the budget. -/
def budgetSplit (r n : Nat) : List Nat :=
  match n with
  | 0 => []
  | n + 1 => (List.range n).map (fun _ => r / (n + 1)) ++ [r - n * (r / (n + 1))]

/-- Modelled from the spec: the exact-files reconciler (spec section 4.5)
is absent from src (only the `GeneratorBuilder::files_exact` callers in the
tests and `main.rs` refer to it).  Following the spec's words: directory
fan-out stays probabilistic; the node receives a file count clamped to the
remaining budget; the unallocated remainder is partitioned deterministically
across the children, and the last node to consume budget along any path
receives whatever remains, so no budget is lost or double counted. -/
noncomputable def genExactTree (draw : Dist → RngState → ℝ × RngState) :
    Nat → Nat → ℝ → ℝ → RngState → FileTree
  | 0, budget, _, _, _ =>
    .node (fileEntries budget) []
  | d + 1, budget, fpd, dpd, rng =>
    let p1 := numToGenerate draw dpd rng
    if p1.1 = 0 then .node (fileEntries budget) []
    else
      let p2 := numToGenerate draw fpd p1.2
      let nf := min p2.1 budget
      let budgets := budgetSplit (budget - nf) p1.1
      let seeds := (drawSeeds p1.1 p2.2).1
      .node (fileEntries nf)
        (withDirNames ((List.range p1.1).map (fun i =>
          genExactTree draw d (budgets.getD i 0) fpd dpd
            (fromSeed (seeds.getD i defaultSeed)))))

/-! ### Concrete fixtures for witnesses and counterexamples -/

/-- A concrete sampler model: always draws 0. -/
def draw0 : Dist → RngState → ℝ × RngState := fun _ r => (0, r)

def rng0 : RngState := ⟨1, 2, 3, 4⟩

def sched0 : Sched := .node [] []

/-- A filesystem whose root does not exist yet but can be created. -/
def fsFresh : FsState := ⟨false, true, 0, none⟩

/-- A filesystem whose root exists and already holds three entries. -/
def fsNonEmpty : FsState := ⟨true, true, 3, none⟩

/-- Depth 0 with a supplied ratio (5) larger than the file target (1). -/
def optsDepth0RatioBig : Generate := ⟨"root", 1, 0, some 5, 0⟩

/-- Depth 1 with a supplied ratio (5) larger than the file target (1). -/
def optsDepth1RatioBig : Generate := ⟨"root", 1, 1, some 5, 0⟩

/-- Depth 0, seven files, no ratio supplied. -/
def optsDepth0Plain : Generate := ⟨"root", 7, 0, none, 0⟩

/-- Depth 2, one hundred files, ratio 4. -/
def optsDepth2 : Generate := ⟨"root", 100, 2, some 4, 0⟩

/-- Depth 5, ten files, no ratio supplied. -/
def optsPlain : Generate := ⟨"root", 10, 5, none, 0⟩

/-! ### Helper lemmas -/

theorem fileEntries_length (n : Nat) : (fileEntries n).length = n := by
  simp [fileEntries]

theorem map_getD_range {α : Type} (l : List α) (d : α) :
    (List.range l.length).map (fun i => l.getD i d) = l := by
  apply List.ext_getElem
  · simp
  · intro i h1 h2
    simp [List.getD_eq_getElem?_getD, List.getElem?_eq_getElem h2]

theorem map_getD_range_of_length {α : Type} (l : List α) (d : α) (n : Nat)
    (h : l.length = n) : (List.range n).map (fun i => l.getD i d) = l := by
  subst h
  exact map_getD_range l d

theorem applyPerm_perm (p : List Nat) (l : List GeneratorStats) :
    (applyPerm p l).Perm l := by
  unfold applyPerm
  split
  case isTrue h =>
    have hp : p.Perm (List.range l.length) := List.isPerm_iff.mp h
    have h2 := hp.map (fun i => l.getD i ⟨0, 0⟩)
    rw [map_getD_range] at h2
    exact h2
  case isFalse h => exact List.Perm.refl l

theorem foldl_statAdd_eq (l : List GeneratorStats) (init : GeneratorStats) :
    l.foldl statAdd init =
      ⟨init.files + (l.map GeneratorStats.files).sum,
        init.dirs + (l.map GeneratorStats.dirs).sum⟩ := by
  induction l generalizing init with
  | nil => simp
  | cons a t ih =>
    simp only [List.foldl_cons, List.map_cons, List.sum_cons, ih, statAdd]
    refine congrArg₂ GeneratorStats.mk ?_ ?_ <;> omega

theorem foldl_statAdd_perm {l l' : List GeneratorStats} (h : l.Perm l')
    (init : GeneratorStats) : l.foldl statAdd init = l'.foldl statAdd init := by
  rw [foldl_statAdd_eq, foldl_statAdd_eq,
    (h.map GeneratorStats.files).sum_eq, (h.map GeneratorStats.dirs).sum_eq]

theorem totalFilesL_eq (l : List (String × FileTree)) :
    totalFilesL l = (l.map (fun p => totalFiles p.2)).sum := by
  induction l with
  | nil => simp [totalFilesL]
  | cons p t ih => simp [totalFilesL, ih]

theorem totalDirsL_eq (l : List (String × FileTree)) :
    totalDirsL l = (l.map (fun p => totalDirs p.2)).sum := by
  induction l with
  | nil => simp [totalDirsL]
  | cons p t ih => simp [totalDirsL, ih]

theorem filesEmptyL_eq (l : List (String × FileTree)) :
    filesEmptyL l = l.all (fun p => filesEmpty p.2) := by
  induction l with
  | nil => simp [filesEmptyL]
  | cons p t ih => simp [filesEmptyL, ih]

theorem enum_map_snd_comp {α β : Type} (ts : List α) (f : α → β) :
    ts.enum.map (fun q => f q.2) = ts.map f := by
  have h1 : ts.enum.map (fun q => f q.2) = (ts.enum.map Prod.snd).map f := by
    rw [List.map_map]
    rfl
  rw [h1, List.enum_map_snd]

theorem withDirNames_map_snd {α : Type} (ts : List FileTree) (f : FileTree → α) :
    (withDirNames ts).map (fun p => f p.2) = ts.map f := by
  rw [withDirNames, List.map_map]
  exact enum_map_snd_comp ts f

theorem withDirNames_length (ts : List FileTree) :
    (withDirNames ts).length = ts.length := by
  simp [withDirNames]

theorem treeDepthL_le (l : List (String × FileTree)) (k : Nat)
    (h : ∀ p ∈ l, treeDepth p.2 ≤ k) : treeDepthL l ≤ k + 1 := by
  induction l with
  | nil => simp [treeDepthL]
  | cons p t ih =>
    simp only [treeDepthL]
    have h1 := h p (List.mem_cons_self p t)
    have h2 := ih (fun q hq => h q (List.mem_cons_of_mem _ hq))
    exact max_le (by omega) h2

theorem runSched_eq (draw : Dist → RngState → ℝ × RngState) :
    ∀ (d : Nat) (σ : Sched) (fpd dpd : ℝ) (rng : RngState),
      runSched draw d σ fpd dpd rng =
        (genTree draw d fpd dpd rng, statsOf (genTree draw d fpd dpd rng)) := by
  intro d
  induction d with
  | zero =>
    intro σ fpd dpd rng
    simp [runSched, genTree, statsOf, totalFiles, totalFilesL, totalDirs, totalDirsL,
      fileEntries_length]
  | succ d ih =>
    intro σ fpd dpd rng
    simp only [runSched, genTree]
    have hres : (List.range (numToGenerate draw dpd (numToGenerate draw fpd rng).2).1).map
        (fun i => runSched draw d (σ.childAt i) fpd dpd
          (fromSeed (((drawSeeds (numToGenerate draw dpd (numToGenerate draw fpd rng).2).1
            (numToGenerate draw dpd (numToGenerate draw fpd rng).2).2).1).getD i defaultSeed)))
        = (List.range (numToGenerate draw dpd (numToGenerate draw fpd rng).2).1).map
        (fun i =>
          (genTree draw d fpd dpd
            (fromSeed (((drawSeeds (numToGenerate draw dpd (numToGenerate draw fpd rng).2).1
              (numToGenerate draw dpd (numToGenerate draw fpd rng).2).2).1).getD i defaultSeed)),
          statsOf (genTree draw d fpd dpd
            (fromSeed (((drawSeeds (numToGenerate draw dpd (numToGenerate draw fpd rng).2).1
              (numToGenerate draw dpd (numToGenerate draw fpd rng).2).2).1).getD i
                defaultSeed))))) := by
      refine List.map_congr_left ?_
      intro i _
      exact ih (σ.childAt i) fpd dpd _
    rw [hres, List.map_map, List.map_map]
    refine Prod.ext rfl ?_
    rw [foldl_statAdd_perm (applyPerm_perm _ _), foldl_statAdd_eq]
    simp only [statsOf, totalFiles, totalDirs, totalFilesL_eq, totalDirsL_eq,
      withDirNames_map_snd, withDirNames_length, fileEntries_length,
      List.length_map, List.length_range, List.map_map]
    rfl

theorem mem_snd_of_mem_withDirNames (ts : List FileTree) (p : String × FileTree)
    (h : p ∈ withDirNames ts) : p.2 ∈ ts := by
  rw [withDirNames] at h
  obtain ⟨q, hq, rfl⟩ := List.mem_map.mp h
  have h2 := List.mem_map_of_mem Prod.snd hq
  rwa [List.enum_map_snd] at h2

theorem budgetSplit_length (r n : Nat) : (budgetSplit r n).length = n := by
  cases n with
  | zero => rfl
  | succ m => simp [budgetSplit]

theorem budgetSplit_sum (r n : Nat) (h : 0 < n) : (budgetSplit r n).sum = r := by
  cases n with
  | zero => omega
  | succ m =>
    simp only [budgetSplit, List.sum_append, List.sum_cons, List.sum_nil]
    have he : ((List.range m).map (fun _ => r / (m + 1))).sum = m * (r / (m + 1)) := by
      simp [List.map_const', List.sum_replicate, smul_eq_mul]
    have h1 : (r / (m + 1)) * (m + 1) ≤ r := Nat.div_mul_le_self r (m + 1)
    have h2 : m * (r / (m + 1)) ≤ r := by
      calc m * (r / (m + 1)) ≤ (m + 1) * (r / (m + 1)) :=
            Nat.mul_le_mul_right _ (Nat.le_succ m)
        _ = (r / (m + 1)) * (m + 1) := Nat.mul_comm _ _
        _ ≤ r := h1
    rw [he]
    omega

/-! ### Claim theorems -/

/-- C1: Determinism of generation.  For every configuration (root path,
target file count, max depth, file-to-dir ratio, entropy) and every model
of the distribution sampler, two runs of the generator with identical
configuration produce identical results — the same tree (names, structure
and per-node counts) and the same statistics — regardless of the order in
which child task results arrive, because every child's seed is drawn
sequentially from its parent's private stream before the child is spawned,
and the stats merge is order-insensitive. -/
theorem generation_deterministic (draw : Dist → RngState → ℝ × RngState)
    (σ1 σ2 : Sched) (fs : FsState) (opts : Generate) :
    generateSched draw σ1 fs opts = generateSched draw σ2 fs opts := by
  simp only [generateSched]
  rcases hv : (validatedOptions fs opts).1 with e | c <;>
    simp [hv, runSched_eq]

/-- C4: Depth bound.  The directory nesting depth of the produced tree
never exceeds the configured maximum depth: a node with remaining depth 0
creates no subdirectories, and every child runs with depth one less than
its parent. -/
theorem depth_bound (draw : Dist → RngState → ℝ × RngState)
    (d : Nat) (fpd dpd : ℝ) (rng : RngState) :
    treeDepth (genTree draw d fpd dpd rng) ≤ d := by
  induction d generalizing rng with
  | zero => simp [genTree, treeDepth, treeDepthL]
  | succ d ih =>
    simp only [genTree, treeDepth]
    refine treeDepthL_le _ d ?_
    intro p hp
    have h2 := mem_snd_of_mem_withDirNames _ _ hp
    obtain ⟨i, -, heq⟩ := List.mem_map.mp h2
    rw [← heq]
    exact ih _

/-- C9: Exact file count.  In the spec-modelled exact-files mode, the
total number of plain files in the produced tree equals the budget handed
to the root — the configured target — for every depth (including 0) and
every budget (including ratio = target), because the last node on every
path receives exactly the remaining budget. -/
theorem exact_file_count (draw : Dist → RngState → ℝ × RngState)
    (d budget : Nat) (fpd dpd : ℝ) (rng : RngState) :
    totalFiles (genExactTree draw d budget fpd dpd rng) = budget := by
  induction d generalizing budget rng with
  | zero => simp [genExactTree, totalFiles, totalFilesL, fileEntries_length]
  | succ d ih =>
    simp only [genExactTree]
    split
    case isTrue h => simp [totalFiles, totalFilesL, fileEntries_length]
    case isFalse h =>
      simp only [totalFiles, totalFilesL_eq, withDirNames_map_snd, fileEntries_length,
        List.map_map]
      have hne : 0 < (numToGenerate draw dpd rng).1 := Nat.pos_of_ne_zero h
      have hmin : min (numToGenerate draw fpd (numToGenerate draw dpd rng).2).1 budget
          ≤ budget := Nat.min_le_right _ _
      set nd := (numToGenerate draw dpd rng).1 with hnd
      set nf := min (numToGenerate draw fpd (numToGenerate draw dpd rng).2).1 budget
        with hnf
      have hcong : (List.range nd).map
          ((fun t => totalFiles t) ∘ (fun i => genExactTree draw d
            ((budgetSplit (budget - nf) nd).getD i 0) fpd dpd
            (fromSeed (((drawSeeds nd
              (numToGenerate draw fpd (numToGenerate draw dpd rng).2).2).1).getD i
                defaultSeed))))
          = (List.range nd).map (fun i => (budgetSplit (budget - nf) nd).getD i 0) := by
        refine List.map_congr_left ?_
        intro i _
        exact ih _ _
      rw [hcong]
      have hlen : (budgetSplit (budget - nf) nd).length = nd := budgetSplit_length _ _
      rw [map_getD_range_of_length (budgetSplit (budget - nf) nd) 0 nd hlen,
        budgetSplit_sum _ _ hne]
      omega

/-- C10: Every file the generator creates is empty (no content is ever
written), the statistics record tracks only file and directory counts, and
on a successful run the reported totals equal the sum over all nodes of
that node's sampled file and directory counts. -/
theorem files_empty_and_stats_totals (draw : Dist → RngState → ℝ × RngState)
    (d : Nat) (σ : Sched) (fpd dpd : ℝ) (rng : RngState) :
    filesEmpty (genTree draw d fpd dpd rng) = true
    ∧ (runSched draw d σ fpd dpd rng).2
        = ⟨totalFiles (genTree draw d fpd dpd rng),
            totalDirs (genTree draw d fpd dpd rng)⟩ := by
  refine ⟨?_, by rw [runSched_eq]; rfl⟩
  induction d generalizing rng with
  | zero =>
    simp [genTree, filesEmpty, filesEmptyL, fileEntries, List.all_eq_true]
  | succ d ih =>
    simp only [genTree, filesEmpty, Bool.and_eq_true, filesEmptyL_eq, List.all_eq_true]
    refine ⟨?_, ?_⟩
    · simp [fileEntries, List.all_eq_true]
    · intro p hp
      have h2 := mem_snd_of_mem_withDirNames _ _ hp
      obtain ⟨i, -, heq⟩ := List.mem_map.mp h2
      rw [← heq]
      exact ih _

/-- C2 counterexample: with max depth = 0 and a supplied ratio (5) larger
than the target file count (1), validation does not fail — the depth-0
branch returns before the ratio is ever checked — and validation has
already mutated the filesystem by creating the missing root directory. -/
theorem ratio_validation_counterexample :
    optsDepth0RatioBig.num_files < ratioOf optsDepth0RatioBig
    ∧ isOkE (validatedOptions fsFresh optsDepth0RatioBig).1 = true
    ∧ (validatedOptions fsFresh optsDepth0RatioBig).2.rootExists = true
    ∧ fsFresh.rootExists = false :=
  ⟨by decide, rfl, rfl, rfl⟩

/-- C2 (amended): for every input with max depth > 0 whose resolved
file-to-dir ratio exceeds the target file count, validation fails with an
invalid-input (DATAERR) error and no generation output is written; the
failure is surfaced after the root directory has been created (if absent)
and checked for emptiness, but before any tree content is generated.  With
max depth = 0 the ratio is not validated at all. -/
theorem ratio_validation_amended (draw : Dist → RngState → ℝ × RngState)
    (σ : Sched) (fs : FsState) (opts : Generate)
    (hd : 0 < opts.max_depth) (hr : opts.num_files < ratioOf opts)
    (hcr : fs.rootCreatable = true)
    (hem : fs.rootExists = true → fs.rootEntries = 0) :
    (generateSched draw σ fs opts).1 = .error .dataError
    ∧ (generateSched draw σ fs opts).2.tree = fs.tree := by
  have hd0 : ¬opts.max_depth = 0 := by omega
  cases hre : fs.rootExists with
  | true =>
    have h0 := hem hre
    simp [generateSched, validatedOptions, createDirAll, hre, h0, hd0, hr]
  | false =>
    simp [generateSched, validatedOptions, createDirAll, hre, hcr, hd0, hr]

theorem ratio_validation_amended_witness :
    (0 < optsDepth1RatioBig.max_depth
      ∧ optsDepth1RatioBig.num_files < ratioOf optsDepth1RatioBig
      ∧ fsFresh.rootCreatable = true)
    ∧ ((generateSched draw0 sched0 fsFresh optsDepth1RatioBig).1
          = .error .dataError
        ∧ (generateSched draw0 sched0 fsFresh optsDepth1RatioBig).2.tree
          = fsFresh.tree) :=
  ⟨⟨by decide, by decide, rfl⟩,
    ratio_validation_amended draw0 sched0 fsFresh optsDepth1RatioBig
      (by decide) (by decide) rfl (fun _ => rfl)⟩

/-- C3: Non-empty-root rejection.  Generating into a pre-existing
directory that contains at least one entry fails with the configuration
error class (DATAERR, not the I/O class IOERR), and the filesystem state
is left entirely unchanged. -/
theorem nonempty_root_rejection (draw : Dist → RngState → ℝ × RngState)
    (σ : Sched) (fs : FsState) (opts : Generate)
    (hex : fs.rootExists = true) (hne : fs.rootEntries ≠ 0) :
    (generateSched draw σ fs opts).1 = .error .dataError
    ∧ (generateSched draw σ fs opts).2 = fs := by
  simp [generateSched, validatedOptions, createDirAll, hex, hne]

theorem nonempty_root_rejection_witness :
    (fsNonEmpty.rootExists = true ∧ fsNonEmpty.rootEntries ≠ 0)
    ∧ ((generateSched draw0 sched0 fsNonEmpty optsPlain).1 = .error .dataError
        ∧ (generateSched draw0 sched0 fsNonEmpty optsPlain).2 = fsNonEmpty) :=
  ⟨⟨rfl, by decide⟩,
    nonempty_root_rejection draw0 sched0 fsNonEmpty optsPlain rfl (by decide)⟩

/-- C5: Configuration derivation for positive depth.  For every validated
input with max depth > 0, the resolved expected-files-per-directory equals
the file-to-dir ratio (defaulting to max(target / 1000, 1) when not
supplied), and the resolved expected-directories-per-directory d satisfies
d ^ max_depth = D with D = target files / ratio. -/
theorem positive_depth_config_derivation (fs : FsState) (opts : Generate)
    (hn : 0 < opts.num_files) (hd : 0 < opts.max_depth)
    (hρ : 0 < ratioOf opts) (hle : ratioOf opts ≤ opts.num_files)
    (hcr : fs.rootCreatable = true)
    (hem : fs.rootExists = true → fs.rootEntries = 0) :
    (validatedOptions fs opts).1 = .ok (positiveDepthConfig opts)
    ∧ (positiveDepthConfig opts).files_per_dir = (ratioOf opts : ℝ)
    ∧ (opts.file_to_dir_ratio = none →
        ratioOf opts = max (opts.num_files / 1000) 1)
    ∧ (positiveDepthConfig opts).dirs_per_dir ^ opts.max_depth
        = (opts.num_files : ℝ) / (ratioOf opts : ℝ) := by
  have hd0 : ¬opts.max_depth = 0 := by omega
  have hng : ¬ratioOf opts > opts.num_files := by omega
  refine ⟨?_, rfl, ?_, ?_⟩
  · cases hre : fs.rootExists with
    | true =>
      have h0 := hem hre
      simp [validatedOptions, createDirAll, hre, h0, hd0, hng]
    | false =>
      simp [validatedOptions, createDirAll, hre, hcr, hd0, hng]
  · intro h
    simp [ratioOf, h]
  · have hD : (0 : ℝ) < (opts.num_files : ℝ) / (ratioOf opts : ℝ) :=
      div_pos (by exact_mod_cast hn) (by exact_mod_cast hρ)
    have hm0 : ((opts.max_depth : ℕ) : ℝ) ≠ 0 := by
      exact_mod_cast Nat.pos_iff_ne_zero.mp hd
    simp only [positiveDepthConfig]
    rw [← Real.rpow_natCast
        ((2 : ℝ) ^ (Real.logb 2 ((opts.num_files : ℝ) / (ratioOf opts : ℝ))
          / (opts.max_depth : ℝ))) opts.max_depth,
      ← Real.rpow_mul (by norm_num : (0 : ℝ) ≤ 2),
      div_mul_cancel₀ _ hm0]
    exact Real.rpow_logb (by norm_num) (by norm_num) hD

theorem positive_depth_config_derivation_witness :
    (0 < optsDepth2.num_files ∧ 0 < optsDepth2.max_depth
      ∧ 0 < ratioOf optsDepth2 ∧ ratioOf optsDepth2 ≤ optsDepth2.num_files)
    ∧ ((validatedOptions fsFresh optsDepth2).1 = .ok (positiveDepthConfig optsDepth2)
        ∧ (positiveDepthConfig optsDepth2).files_per_dir = (ratioOf optsDepth2 : ℝ)
        ∧ (positiveDepthConfig optsDepth2).dirs_per_dir ^ optsDepth2.max_depth
          = (optsDepth2.num_files : ℝ) / (ratioOf optsDepth2 : ℝ)) :=
  ⟨⟨by decide, by decide, by decide, by decide⟩,
    ⟨(positive_depth_config_derivation fsFresh optsDepth2 (by decide) (by decide)
        (by decide) (by decide) rfl (fun _ => rfl)).1,
      (positive_depth_config_derivation fsFresh optsDepth2 (by decide) (by decide)
        (by decide) (by decide) rfl (fun _ => rfl)).2.1,
      (positive_depth_config_derivation fsFresh optsDepth2 (by decide) (by decide)
        (by decide) (by decide) rfl (fun _ => rfl)).2.2.2⟩⟩

/-- C6: Configuration derivation for depth zero.  For every validated
input with max depth = 0, the resolved configuration has
expected-directories-per-directory 0 and expected-files-per-directory
equal to the target file count, and a depth-0 run creates no
subdirectories, so all files are placed directly in the root. -/
theorem depth_zero_config_flat (draw : Dist → RngState → ℝ × RngState)
    (fs : FsState) (opts : Generate) (fpd dpd : ℝ) (rng : RngState)
    (h0 : opts.max_depth = 0)
    (hcr : fs.rootCreatable = true)
    (hem : fs.rootExists = true → fs.rootEntries = 0) :
    (validatedOptions fs opts).1 = .ok (depthZeroConfig opts)
    ∧ (depthZeroConfig opts).dirs_per_dir = 0
    ∧ (depthZeroConfig opts).files_per_dir = (opts.num_files : ℝ)
    ∧ (genTree draw opts.max_depth fpd dpd rng).dirsOf = [] := by
  refine ⟨?_, rfl, rfl, ?_⟩
  · cases hre : fs.rootExists with
    | true =>
      have he := hem hre
      simp [validatedOptions, createDirAll, hre, he, h0]
    | false =>
      simp [validatedOptions, createDirAll, hre, hcr, h0]
  · rw [h0]
    rfl

theorem depth_zero_config_flat_witness :
    (optsDepth0Plain.max_depth = 0 ∧ fsFresh.rootCreatable = true)
    ∧ ((validatedOptions fsFresh optsDepth0Plain).1 = .ok (depthZeroConfig optsDepth0Plain)
        ∧ (depthZeroConfig optsDepth0Plain).dirs_per_dir = 0
        ∧ (depthZeroConfig optsDepth0Plain).files_per_dir = (optsDepth0Plain.num_files : ℝ)
        ∧ (genTree draw0 optsDepth0Plain.max_depth 1 1 rng0).dirsOf = []) :=
  ⟨⟨rfl, rfl⟩,
    depth_zero_config_flat draw0 fsFresh optsDepth0Plain 1 1 rng0 rfl rfl (fun _ => rfl)⟩

/-- C7: Distribution sampler.  The sampler selects a log-normal
distribution with the given mean and coefficient of variation 2 exactly
when the mean exceeds 10 000 and otherwise a normal distribution with
standard deviation 0.2 times the mean; the drawn value is rounded to the
nearest integer and any negative result is clamped to zero by the
saturating cast to usize. -/
theorem sampler_distribution_choice (draw : Dist → RngState → ℝ × RngState)
    (mean : ℝ) (rng : RngState) :
    numToGenerate draw mean rng
      = (intAsUsize (rustRound (draw (chooseDist mean) rng).1),
          (draw (chooseDist mean) rng).2)
    ∧ (10000 < mean → chooseDist mean = .logNormal mean 2)
    ∧ (mean ≤ 10000 → chooseDist mean = .normal mean (mean * 0.2))
    ∧ (∀ s : ℝ, s < 0 → intAsUsize (rustRound s) = 0)
    ∧ (∀ s : ℝ, |s - (rustRound s : ℝ)| ≤ 1 / 2) := by
  refine ⟨rfl, ?_, ?_, ?_, ?_⟩
  · intro h
    simp [chooseDist, h]
  · intro h
    simp [chooseDist, not_lt.mpr h]
  · intro s hs
    have h1 : (0 : ℝ) ≤ -s + 1 / 2 := by linarith
    have h2 : 0 ≤ ⌊-s + 1 / 2⌋ := Int.floor_nonneg.mpr h1
    have h3 : rustRound s = -⌊-s + 1 / 2⌋ := by
      unfold rustRound
      exact if_pos hs
    rw [h3]
    unfold intAsUsize
    rw [Int.toNat_of_nonpos (by omega)]
    simp
  · intro s
    rcases lt_or_ge s 0 with hs | hs
    · have h1 : ((⌊-s + 1 / 2⌋ : ℤ) : ℝ) ≤ -s + 1 / 2 := Int.floor_le _
      have h2 : -s + 1 / 2 < ⌊-s + 1 / 2⌋ + 1 := Int.lt_floor_add_one _
      rw [rustRound, if_pos hs, abs_le]
      constructor <;> push_cast <;> linarith
    · have h1 : ((⌊s + 1 / 2⌋ : ℤ) : ℝ) ≤ s + 1 / 2 := Int.floor_le _
      have h2 : s + 1 / 2 < ⌊s + 1 / 2⌋ + 1 := Int.lt_floor_add_one _
      rw [rustRound, if_neg (not_lt.mpr hs), abs_le]
      constructor <;> linarith

theorem sampler_distribution_choice_witness :
    ((10000 : ℝ) < 20000 ∧ chooseDist 20000 = Dist.logNormal 20000 2)
    ∧ ((5 : ℝ) ≤ 10000 ∧ chooseDist 5 = Dist.normal 5 (5 * 0.2))
    ∧ ((-3 : ℝ) < 0 ∧ intAsUsize (rustRound (-3)) = 0) :=
  ⟨⟨by norm_num, (sampler_distribution_choice draw0 20000 rng0).2.1 (by norm_num)⟩,
    ⟨by norm_num, (sampler_distribution_choice draw0 5 rng0).2.2.1 (by norm_num)⟩,
    ⟨by norm_num,
      (sampler_distribution_choice draw0 (-3) rng0).2.2.2.1 (-3) (by norm_num)⟩⟩

/-- C8: Stats merge algebra.  The merge of generator statistics (the
field-wise sum behind AddAssign) is associative and commutative with the
all-zero record as identity, so folding child results in any arrival order
yields the same total. -/
theorem stats_merge_algebra :
    (∀ a b c : GeneratorStats, statAdd (statAdd a b) c = statAdd a (statAdd b c))
    ∧ (∀ a b : GeneratorStats, statAdd a b = statAdd b a)
    ∧ (∀ a : GeneratorStats, statAdd a ⟨0, 0⟩ = a ∧ statAdd ⟨0, 0⟩ a = a)
    ∧ (∀ (init : GeneratorStats) (l l' : List GeneratorStats),
        l.Perm l' → l.foldl statAdd init = l'.foldl statAdd init) := by
  refine ⟨?_, ?_, ?_, ?_⟩
  · intro a b c
    simp [statAdd, Nat.add_assoc]
  · intro a b
    simp [statAdd, Nat.add_comm]
  · intro a
    constructor <;> simp [statAdd]
  · intro init l l' h
    exact foldl_statAdd_perm h init

theorem stats_merge_algebra_witness :
    ([⟨1, 2⟩, ⟨3, 4⟩] : List GeneratorStats).Perm [⟨3, 4⟩, ⟨1, 2⟩]
    ∧ ([⟨1, 2⟩, ⟨3, 4⟩] : List GeneratorStats).foldl statAdd ⟨0, 0⟩
        = ([⟨3, 4⟩, ⟨1, 2⟩] : List GeneratorStats).foldl statAdd ⟨0, 0⟩ :=
  ⟨List.Perm.swap _ _ _,
    stats_merge_algebra.2.2.2 ⟨0, 0⟩ _ _ (List.Perm.swap _ _ _)⟩

end Ftzz
